import Mathlib

/-
  Verification of the summarization core of `src/server.py` (kakeibo).

  Shallow-embedding conventions, fixed once for the whole development:
  - A dataframe cell as it stands after `pd.to_numeric(..., errors="coerce")`
    is modelled as `Option ℚ`: `none` is NaN, i.e. the cell was missing from
    the file or unparsable; floats are modelled as exact rationals.
  - A cell after `pd.to_datetime(..., errors="coerce")` is modelled as
    `Option Date` (`none` is NaT).  Text cells are `Option String`.
  - A dataframe may lack a column entirely (a CSV without that header); the
    `Cols` record of presence flags models the `col in df.columns` guards
    that `_coerce_types`, `summarize_df` and `filter_month` perform.
  - Python's regex class `\d` (no `re.ASCII`) matches every Unicode
    decimal digit (category Nd), a strict superset of the ASCII digits
    48-57.  The month validator `MONTH_RE` is therefore modelled with its
    `\d` positions abstracted over an arbitrary digit class containing the
    ASCII digits (`monthShape7D`); explicit classes such as `[1-9]`, `[0-2]`
    and literal digits in the source are ASCII and stay concrete.  The
    free-text month parser is modelled with the ASCII digit class only
    (`isDig`); the claims settled against it are evaluated at all-ASCII
    inputs, on which the ASCII model and the Nd class agree.
  - Python's `round(x, 2)` (round half to even at two decimals) is modelled
    exactly on ℚ by `round2`.
  - pandas `sort_values` does not promise a tie order; sorting is modelled
    by a stable insertion sort, which realises one admissible tie order.
-/

namespace Kakeibo

/-- A calendar date as pandas holds it after `to_datetime` (Timestamps lie in
1677..2262, so `%Y` always prints four digits). -/
structure Date where
  year : ℕ
  month : ℕ
  day : ℕ
  deriving DecidableEq

/-- Decimal digits of `n`, left-padded with zeros to width `w`; models
`f"{n:0wd}"` and the zero-padded `strftime` fields. -/
def padNum (w n : ℕ) : String :=
  String.mk (List.replicate (w - (Nat.repr n).length) '0') ++ Nat.repr n

/-- `strftime("%Y-%m")` of a date. -/
def fmtYM (d : Date) : String :=
  padNum 4 d.year ++ "-" ++ padNum 2 d.month

/-- `strftime("%Y-%m-%d")` of a date. -/
def fmtYMD (d : Date) : String :=
  padNum 4 d.year ++ "-" ++ padNum 2 d.month ++ "-" ++ padNum 2 d.day

/-- One dataframe row, cells already taken through the `errors="coerce"`
parses but before `fillna`: `none` is a missing or unparsable cell.
Fields follow the canonical CSV column list of `server.py` in order:
計算対象, 日付, 内容, 金額（円）, 保有金融機関, 大項目, 中項目, メモ, 振替, ID. -/
structure Row where
  keisan : Option ℚ
  date : Option Date
  naiyou : Option String
  amount : Option ℚ
  institution : Option String
  major : Option String
  minor : Option String
  memo : Option String
  furikae : Option ℚ
  rowId : Option String
  deriving DecidableEq

/-- Which canonical columns are present in the dataframe. -/
structure Cols where
  keisan : Bool
  date : Bool
  naiyou : Bool
  amount : Bool
  institution : Bool
  major : Bool
  minor : Bool
  memo : Bool
  furikae : Bool
  rowId : Bool
  deriving DecidableEq

/-- A loaded dataframe: column-presence flags plus rows in file order. -/
structure Ledger where
  cols : Cols
  rows : List Row
  deriving DecidableEq

/-- Truncation toward zero: numpy's `astype(int)` on a float value. -/
def ratTrunc (q : ℚ) : ℤ :=
  if 0 ≤ q then ⌊q⌋ else -⌊-q⌋

/-- The coerced 計算対象 value of a row:
`pd.to_numeric(errors="coerce").fillna(0).astype(int)` from `_coerce_types`. -/
def inclVal (r : Row) : ℤ := ratTrunc ((r.keisan).getD 0)

/-- The coerced 金額（円） value of a row:
`pd.to_numeric(errors="coerce").fillna(0)` from `_coerce_types`. -/
def amt (r : Row) : ℚ := (r.amount).getD 0

/-- `df[df["計算対象"] == 1]` guarded by `if "計算対象" in df.columns`
(`summarize_df`, the included-in-calc filter). -/
def includedRows (l : Ledger) : List Row :=
  if l.cols.keisan then l.rows.filter (fun r => decide (inclVal r = 1)) else l.rows

/-- `filter_month`: keep rows whose `strftime("%Y-%m")` equals `month`;
a missing 日付 column yields the empty frame (`df.iloc[0:0]`), and a NaT
date never equals the month string. -/
def filter_month (cols : Cols) (rows : List Row) (month : String) : List Row :=
  if cols.date then rows.filter (fun r => decide (r.date.map fmtYM = some month)) else []

/-- The rows that survive both filters of `summarize_df`: 計算対象 == 1,
then the month filter.  These are exactly the rows every aggregate of the
returned summary is computed from. -/
def usedRows (l : Ledger) (month : String) : List Row :=
  filter_month l.cols (includedRows l) month

/-- Round half to even to an integer, Python's `round` on an exact value. -/
def bround (x : ℚ) : ℤ :=
  if x - (⌊x⌋ : ℚ) = 1/2 then (if ⌊x⌋ % 2 = 0 then ⌊x⌋ else ⌊x⌋ + 1) else round x

/-- Python's `round(x, 2)`. -/
def round2 (q : ℚ) : ℚ := ((bround (100 * q) : ℤ) : ℚ) / 100

/-- Insert into a list sorted non-decreasingly by the key `f`. -/
def insertB {α : Type} (f : α → ℚ) (a : α) : List α → List α
  | [] => [a]
  | b :: bs => if f a ≤ f b then a :: b :: bs else b :: insertB f a bs

/-- Stable insertion sort by the key `f`; models `sort_values` on a numeric
column (ascending, some admissible tie order). -/
def isortBy {α : Type} (f : α → ℚ) : List α → List α
  | [] => []
  | a :: as => insertB f a (isortBy f as)

/-- First-occurrence deduplication helper. -/
def dedupAcc (seen : List String) : List String → List String
  | [] => []
  | a :: as => if a ∈ seen then dedupAcc seen as else a :: dedupAcc (a :: seen) as

/-- Distinct group keys of `groupby`, in first-occurrence order (the final
order of `by_category` is fixed afterwards by sorting on the totals). -/
def dedupKeys (xs : List String) : List String := dedupAcc [] xs

/-- One entry of `by_category`. -/
structure CatEntry where
  category : String
  total : ℚ
  deriving DecidableEq

/-- One entry of `top_expenses`. -/
structure ExpItem where
  date : Option String
  title : Option String
  amount : ℚ
  category : Option String
  subcategory : Option String
  deriving DecidableEq

/-- The summary dictionary returned by `summarize_df`. -/
structure Summary where
  month : String
  rows_total : ℕ
  rows_used : ℕ
  total_income : ℚ
  total_expense : ℚ
  net : ℚ
  by_category : List CatEntry
  top_expenses : List ExpItem
  deriving DecidableEq

/-- The all-zero summary returned on an empty frame or when no row survives
the filters. -/
def zeroSummary (month : String) : Summary :=
  { month := month, rows_total := 0, rows_used := 0, total_income := 0,
    total_expense := 0, net := 0, by_category := [], top_expenses := [] }

/-- The `amounts` series of `summarize_df`: the coerced 金額（円） column, or
an empty series when the column is absent. -/
def amountsOf (cols : Cols) (rows2 : List Row) : List ℚ :=
  if cols.amount then rows2.map amt else []

/-- `float(amounts[amounts > 0].sum()) if not amounts.empty else 0.0`. -/
def total_income_raw (cols : Cols) (rows2 : List Row) : ℚ :=
  let a := amountsOf cols rows2
  if a.isEmpty then 0 else (a.filter (fun x => decide (0 < x))).sum

/-- `float(-amounts[amounts < 0].sum()) if not amounts.empty else 0.0`. -/
def total_expense_raw (cols : Cols) (rows2 : List Row) : ℚ :=
  let a := amountsOf cols rows2
  if a.isEmpty then 0 else -((a.filter (fun x => decide (x < 0))).sum)

/-- `float(amounts.sum()) if not amounts.empty else 0.0`. -/
def net_raw (cols : Cols) (rows2 : List Row) : ℚ :=
  let a := amountsOf cols rows2
  if a.isEmpty then 0 else a.sum

/-- `df.groupby("大項目")["金額（円）"].sum().sort_values()`, rendered to the
`by_category` list.  pandas `groupby` drops null group keys (its default
`dropna=True`), which is why the rows are first reduced to pairs with a
present 大項目 cell; the source's `cat if pd.notna(cat) else "(不明)"` label
branch is therefore unreachable for null categories. -/
def by_category_of (cols : Cols) (rows2 : List Row) : List CatEntry :=
  if cols.major && cols.amount then
    let pairs := rows2.filterMap (fun r => (r.major).map (fun c => (c, amt r)))
    let keys := dedupKeys (pairs.map (fun p => p.1))
    let groups := keys.map (fun k =>
      (k, ((pairs.filter (fun p => decide (p.1 = k))).map (fun p => p.2)).sum))
    (isortBy (fun g => g.2) groups).map (fun g => { category := g.1, total := g.2 })
  else []

/-- The rendering of one row of `df_exp` into a `top_expenses` entry: the
`row.get(...)` accesses of the loop body, with absent columns giving null. -/
def mkExpItem (cols : Cols) (r : Row) : ExpItem :=
  { date := (if cols.date then r.date else none).map fmtYMD,
    title := if cols.naiyou then r.naiyou else none,
    amount := amt r,
    category := if cols.major then r.major else none,
    subcategory := if cols.minor then r.minor else none }

/-- `df.sort_values("金額（円）").head(5)` rendered to `top_expenses`:
the five rows with the smallest signed amount, whatever their sign. -/
def top_expenses_of (cols : Cols) (rows2 : List Row) : List ExpItem :=
  if cols.amount then ((isortBy amt rows2).take 5).map (mkExpItem cols)
  else []

/-- The non-degenerate branch of `summarize_df` (post-filter rows `rows2`
are nonempty there; the code sets `rows_total` and `rows_used` to the same
post-filter count). -/
def mainSummary (cols : Cols) (month : String) (rows2 : List Row) : Summary :=
  { month := month, rows_total := rows2.length, rows_used := rows2.length,
    total_income := round2 (total_income_raw cols rows2),
    total_expense := round2 (total_expense_raw cols rows2),
    net := round2 (net_raw cols rows2),
    by_category := by_category_of cols rows2,
    top_expenses := top_expenses_of cols rows2 }

/-- `summarize_df`: empty frame short-circuit, the two filters, the
zero-rows short-circuit, then the aggregates. -/
def summarize_df (l : Ledger) (month : String) : Summary :=
  if l.rows.isEmpty then zeroSummary month
  else if (usedRows l month).length = 0 then zeroSummary month
  else mainSummary l.cols month (usedRows l month)

/-- ASCII decimal digit test.  Python's `\d` also matches the non-ASCII
Unicode Nd digits; `isDig` is the ASCII restriction of that class, used for
the free-text month parser model (whose claims are settled at all-ASCII
inputs, where the restriction agrees with `\d`) and as the base class the
abstract validator model is required to contain. -/
def isDig (c : Char) : Bool := decide (48 ≤ c.toNat ∧ c.toNat ≤ 57)

/-- The body shape of `MONTH_RE`, the regex `^\d{4}-(0[1-9]|1[0-2])$`,
matched against an exact 7-character string with `\d` restricted to ASCII
(48, 49, 57, 50 are the code points of 0, 1, 9, 2); this is the `isDig`
instance of the faithful `\d`-abstracted `monthShape7D` below
(`monthShape7_eq_D`), kept for the all-ASCII evaluations where the
restriction is exact. -/
def monthShape7 : List Char → Bool
  | [y1, y2, y3, y4, h, m1, m2] =>
      decide ((48 ≤ y1.toNat ∧ y1.toNat ≤ 57) ∧ (48 ≤ y2.toNat ∧ y2.toNat ≤ 57) ∧
        (48 ≤ y3.toNat ∧ y3.toNat ≤ 57) ∧ (48 ≤ y4.toNat ∧ y4.toNat ≤ 57) ∧
        h = '-' ∧
        ((m1.toNat = 48 ∧ 49 ≤ m2.toNat ∧ m2.toNat ≤ 57) ∨
         (m1.toNat = 49 ∧ 48 ≤ m2.toNat ∧ m2.toNat ≤ 50)))
  | _ => false

/-- `MONTH_RE.match(s)` as a boolean, with `\d` restricted to ASCII (the
`isDig` instance of `MONTH_RE_matchD`, see `MONTH_RE_match_eq_D`; the
faithful Unicode treatment of `\d` is the abstracted version).  Python's
`$` anchor also matches just before one newline at the very end of the
string, so a trailing `"\n"` after an otherwise matching body is accepted
by `re`. -/
def MONTH_RE_match (s : String) : Bool :=
  monthShape7 s.data ||
    (match s.data.getLast? with
     | some c => (c == '\n') && monthShape7 s.data.dropLast
     | none => false)

/-- Modelled from the spec's words for the canonical MonthToken shape over
a character list: a 4-digit year, a hyphen, and a 2-digit month whose
numeric value lies in 01..12. -/
def canonicalYMList : List Char → Bool
  | [y1, y2, y3, y4, h, m1, m2] =>
      decide ((48 ≤ y1.toNat ∧ y1.toNat ≤ 57) ∧ (48 ≤ y2.toNat ∧ y2.toNat ≤ 57) ∧
        (48 ≤ y3.toNat ∧ y3.toNat ≤ 57) ∧ (48 ≤ y4.toNat ∧ y4.toNat ≤ 57) ∧
        h = '-' ∧ (48 ≤ m1.toNat ∧ m1.toNat ≤ 57) ∧ (48 ≤ m2.toNat ∧ m2.toNat ≤ 57) ∧
        1 ≤ 10 * (m1.toNat - 48) + (m2.toNat - 48) ∧
        10 * (m1.toNat - 48) + (m2.toNat - 48) ≤ 12)
  | _ => false

/-- Modelled from the spec's words for the canonical MonthToken shape: a
4-digit year, a hyphen, and a 2-digit month whose value lies in 01..12.
Used as the comparison point for the `MONTH_RE` validation claims. -/
def canonicalYM (s : String) : Bool := canonicalYMList s.data

/-- The pydantic validator `SummarizeRequest.validate_month`. -/
def validate_month (v : String) : Except String String :=
  if MONTH_RE_match v then Except.ok v else Except.error ("month must be in YYYY-MM format")

/-- The `/summarize` request path: pydantic validation runs before the
handler body, so a month failing `MONTH_RE` is rejected before any loading
or aggregation happens. -/
def summarize_endpoint (l : Ledger) (month : String) : Except String Summary :=
  match validate_month month with
  | Except.ok m => Except.ok (summarize_df l m)
  | Except.error e => Except.error e

/-- The body shape of `MONTH_RE` with the `\d` class abstracted: `dig`
stands for Python's Unicode decimal-digit class Nd (the pattern is compiled
without `re.ASCII`), of which the ASCII digits are a strict subset.  The
month alternation `(0[1-9]|1[0-2])` is written in the source with literal
digits and explicit ASCII classes, so it stays concrete whatever `dig` is. -/
def monthShape7D (dig : Char → Bool) : List Char → Bool
  | [y1, y2, y3, y4, h, m1, m2] =>
      decide (dig y1 = true ∧ dig y2 = true ∧ dig y3 = true ∧ dig y4 = true ∧
        h = '-' ∧
        ((m1.toNat = 48 ∧ 49 ≤ m2.toNat ∧ m2.toNat ≤ 57) ∨
         (m1.toNat = 49 ∧ 48 ≤ m2.toNat ∧ m2.toNat ≤ 50)))
  | _ => false

/-- `MONTH_RE.match(s)` with the `\d` class abstracted; like
`MONTH_RE_match`, the `$` anchor also matches just before one newline at
the very end of the string. -/
def MONTH_RE_matchD (dig : Char → Bool) (s : String) : Bool :=
  monthShape7D dig s.data ||
    (match s.data.getLast? with
     | some c => (c == '\n') && monthShape7D dig s.data.dropLast
     | none => false)

/-- Modelled from the spec's words for the shape the validator actually
enforces, with the year digit class `dig` left abstract: four `dig` digits,
a hyphen, and a 2-digit ASCII month whose numeric value lies in 01..12. -/
def canonicalYMListD (dig : Char → Bool) : List Char → Bool
  | [y1, y2, y3, y4, h, m1, m2] =>
      decide (dig y1 = true ∧ dig y2 = true ∧ dig y3 = true ∧ dig y4 = true ∧
        h = '-' ∧ (48 ≤ m1.toNat ∧ m1.toNat ≤ 57) ∧ (48 ≤ m2.toNat ∧ m2.toNat ≤ 57) ∧
        1 ≤ 10 * (m1.toNat - 48) + (m2.toNat - 48) ∧
        10 * (m1.toNat - 48) + (m2.toNat - 48) ≤ 12)
  | _ => false

/-- `SummarizeRequest.validate_month` with the `\d` class abstracted. -/
def validate_monthD (dig : Char → Bool) (v : String) : Except String String :=
  if MONTH_RE_matchD dig v then Except.ok v
  else Except.error ("month must be in YYYY-MM format")

/-- The `/summarize` request path with the `\d` class abstracted: pydantic
validation runs before the handler body. -/
def summarize_endpointD (dig : Char → Bool) (l : Ledger) (month : String) :
    Except String Summary :=
  match validate_monthD dig month with
  | Except.ok m => Except.ok (summarize_df l m)
  | Except.error e => Except.error e

/-- A concrete digit class between ASCII and Nd: the ASCII digits plus the
fullwidth digits ０-９ (code points 65296-65305, category Nd).  Python's
`\d` accepts every character this class accepts. -/
def digWide (c : Char) : Bool :=
  isDig c || decide (65296 ≤ c.toNat ∧ c.toNat ≤ 65305)

/-- The `limit` bounds of `ReadCsvRequest`: `Field(10, ge=1, le=200)`. -/
def limitValid (limit : ℤ) : Bool := decide (1 ≤ limit) && decide (limit ≤ 200)

/-- The fields of `ReadCsvRequest`. -/
structure ReadCsvRequestM where
  filename : Option String
  limit : ℤ
  deriving DecidableEq

/-- Whether pydantic accepts a `/read_csv` request body. -/
def readCsvAccepts (req : ReadCsvRequestM) : Bool := limitValid req.limit

/-- Python `str.strip` whitespace, restricted to the ASCII range. -/
def pySpace (c : Char) : Bool :=
  c == ' ' || c == '\t' || c == '\n' || c == '\r' || c == '\x0b' || c == '\x0c'

/-- `text.strip()`. -/
def stripL (cs : List Char) : List Char :=
  ((cs.dropWhile pySpace).reverse.dropWhile pySpace).reverse

/-- List-of-characters prefix test. -/
def startsWithL : List Char → List Char → Bool
  | _, [] => true
  | [], _ :: _ => false
  | c :: cs, p :: ps => (c == p) && startsWithL cs ps

/-- Python's substring containment `pat in t`. -/
def hasSub : List Char → List Char → Bool
  | [], pat => pat.isEmpty
  | c :: cs, pat => startsWithL (c :: cs) pat || hasSub cs pat

/-- Numeric value of an ASCII digit character. -/
def dVal (c : Char) : ℕ := c.toNat - 48

/-- The candidate matches of the regex group `(0?[1-9]|1[0-2])` at the head
of the input, in the backtracking engine's preference order: greedy
`0?[1-9]` with the `0` consumed, then `[1-9]` alone, then `1[0-2]`.  Each
candidate carries the value parsed by `int` and the remaining input. -/
def monthCands : List Char → List (ℕ × List Char)
  | [] => []
  | [c] => if 49 ≤ c.toNat ∧ c.toNat ≤ 57 then [(dVal c, [])] else []
  | c1 :: c2 :: rest =>
      (if c1.toNat = 48 ∧ 49 ≤ c2.toNat ∧ c2.toNat ≤ 57 then [(dVal c2, rest)] else []) ++
      (if 49 ≤ c1.toNat ∧ c1.toNat ≤ 57 then [(dVal c1, c2 :: rest)] else []) ++
      (if c1.toNat = 49 ∧ 48 ≤ c2.toNat ∧ c2.toNat ≤ 50 then [(10 + dVal c2, rest)] else [])

/-- Try the year-month pattern, four digits then an optional hyphen or
slash separator then `(0?[1-9]|1[0-2])` then an optional 月, anchored at the
current position: the separator is consumed greedily (backtracking
to the no-separator reading if no month alternative fits after it), then the
first fitting month alternative; the optional 月 never affects success. -/
def match3At : List Char → Option (ℕ × ℕ)
  | c1 :: c2 :: c3 :: c4 :: rest =>
      if isDig c1 && isDig c2 && isDig c3 && isDig c4 then
        let y := 1000 * dVal c1 + 100 * dVal c2 + 10 * dVal c3 + dVal c4
        let sepCands :=
          match rest with
          | s :: r2 => if s == '-' || s == '/' then monthCands r2 else []
          | [] => []
        match sepCands ++ monthCands rest with
        | (mm, _) :: _ => some (y, mm)
        | [] => none
      else none
  | _ => none

/-- `re.search` for the year-month pattern: leftmost position wins. -/
def search3 : List Char → Option (ℕ × ℕ)
  | [] => none
  | c :: cs =>
      match match3At (c :: cs) with
      | some r => some r
      | none => search3 cs

/-- Among the month-alternative candidates, the first whose remaining input
starts with the literal 月 (the backtracking across alternatives of
`(0?[1-9]|1[0-2])月`). -/
def takeGetsu : List (ℕ × List Char) → Option ℕ
  | [] => none
  | (mm, rest) :: more =>
      match rest with
      | g :: _ => if g == '月' then some mm else takeGetsu more
      | [] => takeGetsu more

/-- `re.search` for the bare-month pattern `(0?[1-9]|1[0-2])月`. -/
def search4 : List Char → Option ℕ
  | [] => none
  | c :: cs =>
      match takeGetsu (monthCands (c :: cs)) with
      | some mm => some mm
      | none => search4 cs

/-- Try `(\d{4})-(\d{2})` anchored at the current position. -/
def match5At : List Char → Option (ℕ × ℕ)
  | c1 :: c2 :: c3 :: c4 :: h :: d1 :: d2 :: _ =>
      if isDig c1 && isDig c2 && isDig c3 && isDig c4 && (h == '-') && isDig d1 && isDig d2 then
        some (1000 * dVal c1 + 100 * dVal c2 + 10 * dVal c3 + dVal c4, 10 * dVal d1 + dVal d2)
      else none
  | _ => none

/-- `re.search` for the fallback pattern `(\d{4})-(\d{2})`. -/
def search5 : List Char → Option (ℕ × ℕ)
  | [] => none
  | c :: cs =>
      match match5At (c :: cs) with
      | some r => some r
      | none => search5 cs

/-- `now.replace(day=1) - timedelta(days=1)` lands on the last day of the
previous month; only its year and month are used by `strftime("%Y-%m")`. -/
def prevMonthYM (now : Date) : Date :=
  if now.month = 1 then { year := now.year - 1, month := 12, day := 1 }
  else { year := now.year, month := now.month - 1, day := 1 }

/-- `parse_month_from_text(text)` with the JST clock value `now` passed
explicitly: the 今月 and 先月 substring tests, then the three regex
searches, in source order; falsy input (absent or empty) returns null. -/
def parse_month_from_text (now : Date) (text : Option String) : Option String :=
  match text with
  | none => none
  | some s =>
      if s.data.isEmpty then none
      else
        let t := stripL s.data
        if hasSub t ("今月".data) then some (fmtYM now)
        else if hasSub t ("先月".data) then some (fmtYM (prevMonthYM now))
        else
          match search3 t with
          | some (y, mm) => some (padNum 4 y ++ "-" ++ padNum 2 mm)
          | none =>
              match search4 t with
              | some mm =>
                  let y := if now.month < mm then now.year - 1 else now.year
                  some (padNum 4 y ++ "-" ++ padNum 2 mm)
              | none =>
                  match search5 t with
                  | some (y, mm) => some (padNum 4 y ++ "-" ++ padNum 2 mm)
                  | none => none

/-- All canonical columns present. -/
def allCols : Cols :=
  { keisan := true, date := true, naiyou := true, amount := true, institution := true,
    major := true, minor := true, memo := true, furikae := true, rowId := true }

/-- An included March 2024 expense row with a missing 大項目 cell. -/
def row1 : Row :=
  { keisan := some 1, date := some { year := 2024, month := 3, day := 15 },
    naiyou := some ("coffee"), amount := some (-100), institution := none,
    major := none, minor := none, memo := none, furikae := some 0, rowId := none }

/-- One-row ledger around `row1`. -/
def ledger1 : Ledger := { cols := allCols, rows := [row1] }

/-- An included March 2024 income row (positive amount). -/
def row2 : Row :=
  { keisan := some 1, date := some { year := 2024, month := 3, day := 5 },
    naiyou := some ("salary"), amount := some 100, institution := none,
    major := some ("income"), minor := none, memo := none, furikae := some 0, rowId := none }

/-- One-row ledger around `row2`. -/
def ledger2 : Ledger := { cols := allCols, rows := [row2] }

/-- Presence flags of a frame whose CSV had no 計算対象 header. -/
def colsNoKeisan : Cols :=
  { keisan := false, date := true, naiyou := true, amount := true, institution := true,
    major := true, minor := true, memo := true, furikae := true, rowId := true }

/-- A March 2024 expense row whose 計算対象 cell does not exist. -/
def row3 : Row :=
  { keisan := none, date := some { year := 2024, month := 3, day := 10 },
    naiyou := some ("rent"), amount := some (-50), institution := none,
    major := some ("housing"), minor := none, memo := none, furikae := none, rowId := none }

/-- Ledger whose 計算対象 column is absent entirely. -/
def ledger3 : Ledger := { cols := colsNoKeisan, rows := [row3] }

/-- A ledger with the canonical columns and no rows, as `load_all_csvs`
returns when no file exists. -/
def emptyLedger : Ledger := { cols := allCols, rows := [] }

/-- A row whose 日付 cell failed to parse (NaT). -/
def rowNoDate : Row :=
  { keisan := some 1, date := none, naiyou := some ("unknown day"), amount := some (-10),
    institution := none, major := none, minor := none, memo := none, furikae := some 0,
    rowId := none }

/-- Filtering twice with the same predicate filters once. -/
theorem filter_idem {α : Type} (p : α → Bool) :
    ∀ l : List α, (l.filter p).filter p = l.filter p := by
  intro l
  induction l with
  | nil => rfl
  | cons a as ih =>
      by_cases h : p a = true
      · simp [List.filter_cons, h, ih]
      · simp [List.filter_cons, h, ih]

/-- An empty row list survives no stage of the filter pipeline. -/
theorem filter_month_nil (cols : Cols) (m : String) : filter_month cols [] m = [] := by
  by_cases h : cols.date = true <;> simp [filter_month, h]

/-- A ledger without rows has no used rows. -/
theorem usedRows_nil (l : Ledger) (m : String) (h : l.rows = []) : usedRows l m = [] := by
  unfold usedRows includedRows
  by_cases hk : l.cols.keisan = true <;> simp [hk, h, filter_month_nil]

/-- The amounts series over no rows is empty. -/
theorem amountsOf_nil (cols : Cols) : amountsOf cols [] = [] := by
  by_cases h : cols.amount = true <;> simp [amountsOf, h]

/-- Positive-part and negative-part sums recompose the full sum (zero
amounts contribute to neither side). -/
theorem sum_filter_pos_add_neg (xs : List ℚ) :
    (xs.filter (fun x => decide (0 < x))).sum + (xs.filter (fun x => decide (x < 0))).sum
      = xs.sum := by
  induction xs with
  | nil => simp
  | cons a as ih =>
      by_cases h1 : 0 < a
      · have h2 : ¬ a < 0 := by linarith
        simp only [List.filter_cons, decide_eq_true_eq, h1, if_true, h2, if_false, List.sum_cons]
        linarith
      · by_cases h2 : a < 0
        · simp only [List.filter_cons, decide_eq_true_eq, h1, if_false, h2, if_true, List.sum_cons]
          linarith
        · have h3 : a = 0 := le_antisymm (not_lt.mp h1) (not_lt.mp h2)
          subst h3
          simp only [List.filter_cons, decide_eq_true_eq, lt_irrefl, if_false, List.sum_cons]
          linarith

/-- The three raw aggregates satisfy the exact income-expense-net identity
before any rounding. -/
theorem raw_identity (cols : Cols) (rows2 : List Row) :
    total_income_raw cols rows2 - total_expense_raw cols rows2 - net_raw cols rows2 = 0 := by
  unfold total_income_raw total_expense_raw net_raw
  by_cases h : (amountsOf cols rows2).isEmpty = true
  · simp [h]
  · have hne : (amountsOf cols rows2).isEmpty = false := by
      cases hx : (amountsOf cols rows2).isEmpty
      · rfl
      · exact absurd hx h
    simp only [hne, Bool.false_eq_true, if_false]
    have := sum_filter_pos_add_neg (amountsOf cols rows2)
    linarith

/-- Round-half-to-even lands within a half unit of the argument. -/
theorem abs_bround_sub (x : ℚ) : |(bround x : ℚ) - x| ≤ 1/2 := by
  unfold bround
  by_cases h : x - (⌊x⌋ : ℚ) = 1/2
  · by_cases he : ⌊x⌋ % 2 = 0
    · rw [if_pos h, if_pos he]
      have e : (⌊x⌋ : ℚ) - x = -(1/2) := by linarith
      rw [e, abs_neg, abs_of_nonneg (by norm_num : (0:ℚ) ≤ 1/2)]
    · rw [if_pos h, if_neg he]
      have e : ((⌊x⌋ + 1 : ℤ) : ℚ) - x = 1/2 := by push_cast; linarith
      rw [e, abs_of_nonneg (by norm_num : (0:ℚ) ≤ 1/2)]
  · rw [if_neg h, abs_sub_comm]
    exact abs_sub_round x

/-- Two-decimal rounding lands within half a cent. -/
theorem abs_round2_sub (q : ℚ) : |round2 q - q| ≤ 1/200 := by
  have h := abs_bround_sub (100 * q)
  unfold round2
  have e : ((bround (100 * q) : ℤ) : ℚ) / 100 - q = ((bround (100 * q) : ℤ) - 100 * q) / 100 := by
    ring
  rw [e, abs_div]
  have h100 : |(100 : ℚ)| = 100 := by norm_num
  rw [h100, div_le_iff₀ (by norm_num : (0:ℚ) < 100)]
  linarith

/-- Rounding zero gives zero. -/
theorem round2_zero : round2 0 = 0 := by
  unfold round2 bround
  norm_num

/-- When three exact values satisfy the identity, their separately rounded
versions differ by at most one cent (they are all multiples of 1/100 and
their combined rounding error is below 3/200). -/
theorem round2_combo (x y z : ℚ) (h : x - y - z = 0) :
    |round2 x - round2 y - round2 z| ≤ 1/100 := by
  have hx := abs_round2_sub x
  have hy := abs_round2_sub y
  have hz := abs_round2_sub z
  have e : round2 x - round2 y - round2 z =
      ((bround (100 * x) - bround (100 * y) - bround (100 * z) : ℤ) : ℚ) / 100 := by
    unfold round2
    push_cast
    ring
  have hb : |round2 x - round2 y - round2 z| ≤ 3/200 := by
    have comb : round2 x - round2 y - round2 z =
        (round2 x - x) - (round2 y - y) - (round2 z - z) + (x - y - z) := by ring
    rw [comb, h, add_zero]
    calc |(round2 x - x) - (round2 y - y) - (round2 z - z)|
        ≤ |(round2 x - x) - (round2 y - y)| + |round2 z - z| := abs_sub _ _
      _ ≤ |round2 x - x| + |round2 y - y| + |round2 z - z| := by
          have := abs_sub (round2 x - x) (round2 y - y)
          linarith
      _ ≤ 1/200 + 1/200 + 1/200 := by linarith
      _ = 3/200 := by norm_num
  set n : ℤ := bround (100 * x) - bround (100 * y) - bround (100 * z) with hn
  have hq : |(n : ℚ)| ≤ 3/2 := by
    rw [e] at hb
    rw [abs_div] at hb
    have h100 : |(100 : ℚ)| = 100 := by norm_num
    rw [h100, div_le_iff₀ (by norm_num : (0:ℚ) < 100)] at hb
    linarith
  have hlt : |n| < 2 := by
    have : ((|n| : ℤ) : ℚ) < ((2 : ℤ) : ℚ) := by
      rw [Int.cast_abs]
      calc |(n : ℚ)| ≤ 3/2 := hq
        _ < ((2 : ℤ) : ℚ) := by norm_num
    exact_mod_cast this
  have hle : |n| ≤ 1 := by omega
  rw [e, abs_div]
  have h100 : |(100 : ℚ)| = 100 := by norm_num
  rw [h100, div_le_iff₀ (by norm_num : (0:ℚ) < 100)]
  have : |(n : ℚ)| ≤ 1 := by
    rw [← Int.cast_abs]
    exact_mod_cast hle
  linarith

/-- Inserting grows the length by one. -/
theorem insertB_length {α : Type} (f : α → ℚ) (a : α) :
    ∀ xs : List α, (insertB f a xs).length = xs.length + 1 := by
  intro xs
  induction xs with
  | nil => rfl
  | cons b bs ih =>
      unfold insertB
      by_cases h : f a ≤ f b
      · simp [h]
      · simp [h, ih]

/-- Insertion sort preserves length. -/
theorem isortBy_length {α : Type} (f : α → ℚ) :
    ∀ xs : List α, (isortBy f xs).length = xs.length := by
  intro xs
  induction xs with
  | nil => rfl
  | cons a as ih =>
      unfold isortBy
      rw [insertB_length, ih]
      rfl

/-- Members of an insertion are the inserted element or old members. -/
theorem mem_insertB {α : Type} (f : α → ℚ) (a y : α) :
    ∀ xs : List α, y ∈ insertB f a xs → y = a ∨ y ∈ xs := by
  intro xs
  induction xs with
  | nil =>
      intro h
      simp only [insertB, List.mem_singleton] at h
      exact Or.inl h
  | cons b bs ih =>
      intro h
      unfold insertB at h
      by_cases hle : f a ≤ f b
      · rw [if_pos hle] at h
        rcases List.mem_cons.mp h with h1 | h1
        · exact Or.inl h1
        · exact Or.inr h1
      · rw [if_neg hle] at h
        rcases List.mem_cons.mp h with h1 | h1
        · exact Or.inr (by simp [h1])
        · rcases ih h1 with h2 | h2
          · exact Or.inl h2
          · exact Or.inr (List.mem_cons_of_mem b h2)

/-- Inserting into a list sorted by `f` keeps it sorted by `f`. -/
theorem pairwise_insertB {α : Type} (f : α → ℚ) (a : α) :
    ∀ xs : List α, xs.Pairwise (fun u v => f u ≤ f v) →
      (insertB f a xs).Pairwise (fun u v => f u ≤ f v) := by
  intro xs
  induction xs with
  | nil =>
      intro _
      simp [insertB]
  | cons b bs ih =>
      intro h
      rw [List.pairwise_cons] at h
      unfold insertB
      by_cases hle : f a ≤ f b
      · rw [if_pos hle, List.pairwise_cons]
        constructor
        · intro y hy
          rcases List.mem_cons.mp hy with h1 | h1
          · exact h1 ▸ hle
          · exact le_trans hle (h.1 y h1)
        · rw [List.pairwise_cons]
          exact h
      · rw [if_neg hle, List.pairwise_cons]
        constructor
        · intro y hy
          rcases mem_insertB f a y bs hy with h1 | h1
          · exact h1 ▸ le_of_not_le hle
          · exact h.1 y h1
        · exact ih h.2

/-- Insertion sort sorts non-decreasingly by its key. -/
theorem pairwise_isortBy {α : Type} (f : α → ℚ) :
    ∀ xs : List α, (isortBy f xs).Pairwise (fun u v => f u ≤ f v) := by
  intro xs
  induction xs with
  | nil => simp [isortBy]
  | cons a as ih =>
      unfold isortBy
      exact pairwise_insertB f a _ ih

/-- Inserting permutes consing. -/
theorem insertB_perm {α : Type} (f : α → ℚ) (a : α) :
    ∀ xs : List α, List.Perm (insertB f a xs) (a :: xs) := by
  intro xs
  induction xs with
  | nil => exact List.Perm.refl _
  | cons b bs ih =>
      unfold insertB
      by_cases h : f a ≤ f b
      · rw [if_pos h]
      · rw [if_neg h]
        exact List.Perm.trans (List.Perm.cons b ih) (List.Perm.swap a b bs)

/-- Insertion sort permutes its input: the sorted list holds exactly the
input rows. -/
theorem isortBy_perm {α : Type} (f : α → ℚ) :
    ∀ xs : List α, List.Perm (isortBy f xs) xs := by
  intro xs
  induction xs with
  | nil => exact List.Perm.refl _
  | cons a as ih =>
      unfold isortBy
      exact List.Perm.trans (insertB_perm f a (isortBy f as)) (List.Perm.cons a ih)

/-- The fullwidth-extended digit class contains the ASCII digits. -/
theorem digWide_extends_ascii : ∀ c : Char, isDig c = true → digWide c = true := by
  intro c h
  unfold digWide
  rw [h]
  rfl

attribute [local semireducible] Rat.add Rat.mul Rat.sub Rat.inv Rat.ofScientific in
/-- C1: contrary to the claim, a row whose 大項目 cell is null is not
grouped under the unknown-label bucket: pandas `groupby` drops the null
group key, so on a one-row March-2024 ledger whose only row has amount
-100 and no major category, `by_category` comes back empty and the sum of
its totals (0) differs from `net` (-100).  The label branch of the source
is dead code for null categories. -/
theorem null_category_rows_vanish_from_by_category :
    (summarize_df ledger1 ("2024-03")).rows_used = 1 ∧
    (summarize_df ledger1 ("2024-03")).by_category = [] ∧
    (summarize_df ledger1 ("2024-03")).net = -100 ∧
    ((summarize_df ledger1 ("2024-03")).by_category.map CatEntry.total).sum ≠
      (summarize_df ledger1 ("2024-03")).net := by decide

attribute [local semireducible] Rat.add Rat.mul Rat.sub Rat.inv Rat.ofScientific in
/-- C2 counterexample: on a one-row March-2024 ledger whose only row has
amount +100, no post-filter row has a negative amount, yet `top_expenses`
holds one entry — of positive amount — because the source takes
`sort_values(...).head(5)` without filtering to negative rows.  This
falsifies both the claimed length `min(5, #negative rows)` and the claimed
negativity of every entry. -/
theorem top_expenses_includes_nonnegative_rows :
    ((usedRows ledger2 ("2024-03")).filter (fun r => decide (amt r < 0))).length = 0 ∧
    (summarize_df ledger2 ("2024-03")).top_expenses.length = 1 ∧
    (summarize_df ledger2 ("2024-03")).top_expenses.length ≠
      min 5 ((usedRows ledger2 ("2024-03")).filter (fun r => decide (amt r < 0))).length ∧
    ∃ e ∈ (summarize_df ledger2 ("2024-03")).top_expenses, 0 < e.amount := by decide

/-- C2 as amended: when the amount column is present, `top_expenses` has
length `min(5, rows_used)` — the post-filter row count, not the count of
negative rows — and is non-decreasing by signed amount from first to last;
it renders exactly a selection `sel` of post-filter rows that, together
with the remaining rows, permutes the post-filter row list and whose every
amount is at most every unselected amount (the smallest-amount rows); and
whenever fewer post-filter rows have amount below zero than `top_expenses`
has entries, some entry has non-negative amount. -/
theorem top_expenses_smallest_rows (l : Ledger) (m : String)
    (h : l.cols.amount = true) :
    (summarize_df l m).top_expenses.length = min 5 (summarize_df l m).rows_used ∧
    (summarize_df l m).top_expenses.Pairwise (fun a b => a.amount ≤ b.amount) ∧
    (∃ sel rest : List Row,
      List.Perm (sel ++ rest) (usedRows l m) ∧
      (summarize_df l m).top_expenses = sel.map (mkExpItem l.cols) ∧
      (∀ a ∈ sel, ∀ b ∈ rest, amt a ≤ amt b)) ∧
    (((usedRows l m).filter (fun r => decide (amt r < 0))).length <
        (summarize_df l m).top_expenses.length →
      ∃ e ∈ (summarize_df l m).top_expenses, 0 ≤ e.amount) := by
  by_cases hz : l.rows.isEmpty = true ∨ (usedRows l m).length = 0
  · have hu : usedRows l m = [] := by
      rcases hz with hz | hz
      · exact usedRows_nil l m (List.isEmpty_iff.mp hz)
      · exact List.length_eq_zero.mp hz
    have hsz : summarize_df l m = zeroSummary m := by
      by_cases hI : l.rows.isEmpty = true
      · simp [summarize_df, hI]
      · have : (usedRows l m).length = 0 := by rw [hu]; rfl
        simp [summarize_df, hI, this]
    rw [hsz, hu]
    exact ⟨by simp [zeroSummary], by simp [zeroSummary],
      ⟨[], [], List.Perm.nil, by simp [zeroSummary], by simp⟩, by simp [zeroSummary]⟩
  · push_neg at hz
    obtain ⟨hI, hlen⟩ := hz
    have hsz : summarize_df l m = mainSummary l.cols m (usedRows l m) := by
      simp [summarize_df, hI, hlen]
    have htop : (summarize_df l m).top_expenses =
        ((isortBy amt (usedRows l m)).take 5).map (mkExpItem l.cols) := by
      rw [hsz]
      simp [mainSummary, top_expenses_of, h]
    have hrows : (summarize_df l m).rows_used = (usedRows l m).length := by
      rw [hsz]
      rfl
    refine ⟨?_, ?_, ?_, ?_⟩
    · rw [htop, hrows, List.length_map, List.length_take, isortBy_length]
    · rw [htop, List.pairwise_map]
      refine List.Pairwise.sublist (List.take_sublist _ _) ?_
      exact pairwise_isortBy amt _
    · refine ⟨(isortBy amt (usedRows l m)).take 5, (isortBy amt (usedRows l m)).drop 5,
        ?_, htop, ?_⟩
      · rw [List.take_append_drop]
        exact isortBy_perm amt _
      · have hap : ((isortBy amt (usedRows l m)).take 5 ++
            (isortBy amt (usedRows l m)).drop 5).Pairwise (fun a b => amt a ≤ amt b) := by
          rw [List.take_append_drop]
          exact pairwise_isortBy amt _
        exact (List.pairwise_append.mp hap).2.2
    · intro hneg
      by_contra hc
      push_neg at hc
      rw [htop] at hc hneg
      rw [List.length_map] at hneg
      have hall : ∀ a ∈ (isortBy amt (usedRows l m)).take 5, amt a < 0 := by
        intro a ha
        exact hc (mkExpItem l.cols a) (List.mem_map_of_mem _ ha)
      have hfeq : ((isortBy amt (usedRows l m)).take 5).filter (fun r => decide (amt r < 0)) =
          (isortBy amt (usedRows l m)).take 5 :=
        List.filter_eq_self.mpr (fun a ha => decide_eq_true (hall a ha))
      have hsub := (List.take_sublist 5 (isortBy amt (usedRows l m))).filter
          (fun r => decide (amt r < 0))
      have hlen1 := hsub.length_le
      rw [hfeq] at hlen1
      have hperm := ((isortBy_perm amt (usedRows l m)).filter
          (fun r => decide (amt r < 0))).length_eq
      omega

/-- C2 witness: the amended statement evaluated on the concrete positive
one-row ledger. -/
theorem top_expenses_smallest_rows_witness :
    (summarize_df ledger2 ("2024-03")).top_expenses.length =
      min 5 (summarize_df ledger2 ("2024-03")).rows_used ∧
    (summarize_df ledger2 ("2024-03")).top_expenses.Pairwise (fun a b => a.amount ≤ b.amount) ∧
    (∃ sel rest : List Row,
      List.Perm (sel ++ rest) (usedRows ledger2 ("2024-03")) ∧
      (summarize_df ledger2 ("2024-03")).top_expenses = sel.map (mkExpItem ledger2.cols) ∧
      (∀ a ∈ sel, ∀ b ∈ rest, amt a ≤ amt b)) ∧
    (((usedRows ledger2 ("2024-03")).filter (fun r => decide (amt r < 0))).length <
        (summarize_df ledger2 ("2024-03")).top_expenses.length →
      ∃ e ∈ (summarize_df ledger2 ("2024-03")).top_expenses, 0 ≤ e.amount) :=
  top_expenses_smallest_rows ledger2 ("2024-03") rfl

attribute [local semireducible] Rat.add Rat.mul Rat.sub Rat.inv Rat.ofScientific in
/-- C3 counterexample: when the 計算対象 column is absent from the frame,
the source skips the included-in-calc filter altogether, so a row whose
flag cell does not exist (hence, per the spec, coerces to false) still
contributes to the totals: on `ledger3` the single flagless row of amount
-50 produces total_expense 50 and net -50 instead of an all-zero summary. -/
theorem absent_flag_column_rows_still_counted :
    ledger3.cols.keisan = false ∧ (∀ r ∈ ledger3.rows, r.keisan = none) ∧
    (summarize_df ledger3 ("2024-03")).total_expense = 50 ∧
    (summarize_df ledger3 ("2024-03")).net = -50 := by decide

/-- C3 as amended: provided the ledger has the 計算対象 column, rows whose
coerced flag is not 1 — including rows whose flag cell is missing or
unparsable, which coerce to 0 — contribute to no aggregate of the summary:
removing them from the ledger leaves the entire summary unchanged. -/
theorem excluded_rows_contribute_nothing (l : Ledger) (m : String)
    (h : l.cols.keisan = true) :
    summarize_df l m =
      summarize_df { cols := l.cols, rows := l.rows.filter (fun r => decide (inclVal r = 1)) } m := by
  have hincl : includedRows l = l.rows.filter (fun r => decide (inclVal r = 1)) := by
    unfold includedRows
    simp only [h, if_true]
  have hinc2 : includedRows { cols := l.cols, rows := l.rows.filter (fun r => decide (inclVal r = 1)) }
      = l.rows.filter (fun r => decide (inclVal r = 1)) := by
    unfold includedRows
    simp only [h, if_true]
    exact filter_idem _ _
  have hused : usedRows { cols := l.cols, rows := l.rows.filter (fun r => decide (inclVal r = 1)) } m
      = usedRows l m := by
    unfold usedRows
    rw [hinc2, hincl]
  by_cases h1 : l.rows.isEmpty = true
  · have hnil : l.rows = [] := List.isEmpty_iff.mp h1
    have hfnil : l.rows.filter (fun r => decide (inclVal r = 1)) = [] := by rw [hnil]; rfl
    simp [summarize_df, h1, hfnil]
  · by_cases hf : l.rows.filter (fun r => decide (inclVal r = 1)) = []
    · have hu : usedRows l m = [] := by
        unfold usedRows
        rw [hincl, hf]
        exact filter_month_nil _ _
      simp [summarize_df, h1, hf, hu]
    · have hne2 : (l.rows.filter (fun r => decide (inclVal r = 1))).isEmpty = false := by
        cases hx : (l.rows.filter (fun r => decide (inclVal r = 1))).isEmpty
        · rfl
        · exact absurd (List.isEmpty_iff.mp hx) hf
      simp only [summarize_df, hne2, Bool.false_eq_true, if_false, hused]
      by_cases h3 : (usedRows l m).length = 0
      · simp [h1, h3]
      · simp [h1, h3, mainSummary]

/-- C3 witness: the amended statement evaluated on the concrete ledger
whose row has a null category and flag 1. -/
theorem excluded_rows_contribute_nothing_witness :
    summarize_df ledger1 ("2024-03") =
      summarize_df { cols := ledger1.cols, rows := ledger1.rows.filter (fun r => decide (inclVal r = 1)) } ("2024-03") :=
  excluded_rows_contribute_nothing ledger1 ("2024-03") rfl

/-- The raw income aggregate over no rows is zero. -/
theorem total_income_raw_nil (cols : Cols) : total_income_raw cols [] = 0 := by
  unfold total_income_raw
  simp [amountsOf_nil]

/-- The raw expense aggregate over no rows is zero. -/
theorem total_expense_raw_nil (cols : Cols) : total_expense_raw cols [] = 0 := by
  unfold total_expense_raw
  simp [amountsOf_nil]

/-- The raw net aggregate over no rows is zero. -/
theorem net_raw_nil (cols : Cols) : net_raw cols [] = 0 := by
  unfold net_raw
  simp [amountsOf_nil]

/-- C4: in every summary, `total_income` is the rounded sum of the strictly
positive post-filter amounts, `total_expense` the rounded negated sum of the
strictly negative ones, `net` the rounded total, and the three reported
(2-decimal-rounded) values satisfy the income-expense-net identity to within
one cent.  Stated for every month string, hence for every valid MonthToken. -/
theorem totals_identity_within_rounding (l : Ledger) (m : String) :
    (summarize_df l m).total_income = round2 (total_income_raw l.cols (usedRows l m)) ∧
    (summarize_df l m).total_expense = round2 (total_expense_raw l.cols (usedRows l m)) ∧
    (summarize_df l m).net = round2 (net_raw l.cols (usedRows l m)) ∧
    |(summarize_df l m).total_income - (summarize_df l m).total_expense -
      (summarize_df l m).net| ≤ 1/100 := by
  have fields : (summarize_df l m).total_income = round2 (total_income_raw l.cols (usedRows l m)) ∧
      (summarize_df l m).total_expense = round2 (total_expense_raw l.cols (usedRows l m)) ∧
      (summarize_df l m).net = round2 (net_raw l.cols (usedRows l m)) := by
    by_cases h1 : l.rows.isEmpty = true
    · have hnil := usedRows_nil l m (List.isEmpty_iff.mp h1)
      rw [hnil]
      simp [summarize_df, h1, zeroSummary, total_income_raw_nil, total_expense_raw_nil,
        net_raw_nil, round2_zero]
    · by_cases h2 : (usedRows l m).length = 0
      · have hnil : usedRows l m = [] := List.length_eq_zero.mp h2
        rw [hnil]
        simp [summarize_df, h1, h2, zeroSummary, total_income_raw_nil, total_expense_raw_nil,
          net_raw_nil, round2_zero]
      · simp [summarize_df, h1, h2, mainSummary]
  refine ⟨fields.1, fields.2.1, fields.2.2, ?_⟩
  rw [fields.1, fields.2.1, fields.2.2]
  exact round2_combo _ _ _ (raw_identity _ _)

/-- C5: month filtering is exact on the used-row set every aggregate is
computed from: a row reaching the aggregation for month `m` is never in the
aggregation for a different month `m2`, and a row with an unparsable (null)
date reaches the aggregation of no month.  Stated for every month string,
hence for every pair of distinct valid MonthTokens. -/
theorem month_filter_exact (l : Ledger) (m m2 : String) (r : Row) :
    (m ≠ m2 → r ∈ usedRows l m → r ∉ usedRows l m2) ∧
    (r.date = none → r ∉ usedRows l m) := by
  unfold usedRows filter_month
  by_cases hd : l.cols.date = true
  · simp only [hd, if_true]
    constructor
    · intro hne h1 h2
      rw [List.mem_filter] at h1 h2
      have e1 := of_decide_eq_true h1.2
      have e2 := of_decide_eq_true h2.2
      rw [e1] at e2
      exact hne (Option.some.inj e2)
    · intro hn h1
      rw [List.mem_filter] at h1
      have e1 := of_decide_eq_true h1.2
      rw [hn] at e1
      simp at e1
  · have hd2 : l.cols.date = false := by
      cases hx : l.cols.date
      · rfl
      · exact absurd hx hd
    simp only [hd2, Bool.false_eq_true, if_false]
    constructor
    · intro _ h1
      exact absurd h1 (List.not_mem_nil r)
    · intro _ h1
      exact absurd h1 (List.not_mem_nil r)

/-- C5 witness: the March 2024 row of `ledger1` is used for 2024-03 but not
for 2024-04, and a NaT-dated row is used for no month. -/
theorem month_filter_exact_witness :
    row1 ∉ usedRows ledger1 ("2024-04") ∧ rowNoDate ∉ usedRows ledger1 ("2024-03") :=
  ⟨(month_filter_exact ledger1 ("2024-03") ("2024-04") row1).1 (by decide) (by decide),
   (month_filter_exact ledger1 ("2024-03") ("2024-03") rowNoDate).2 rfl⟩

/-- C6: the claim that every non-null result of `parse_month_from_text` is a
canonical YYYY-MM token fails: the final fallback search for four digits,
a hyphen and two digits accepts the month 00, so the input string 2024-00
resolves — for any reference date — to the non-canonical token 2024-00,
which the code's own `MONTH_RE` validator rejects. -/
theorem parse_month_emits_noncanonical_token :
    parse_month_from_text { year := 2024, month := 3, day := 15 } (some ("2024-00")) =
      some ("2024-00") ∧
    parse_month_from_text { year := 1999, month := 12, day := 31 } (some ("2024-00")) =
      some ("2024-00") ∧
    canonicalYM ("2024-00") = false ∧ MONTH_RE_match ("2024-00") = false := by decide

/-- C7: the Month Resolver scenarios at reference date 2024-03-15 (JST):
今月 and 先月 and the bare month 5月 and the no-match input behave as the
spec says, but 2023/11 resolves to 2023-01, not the claimed 2023-11 — the
regex alternative `0?[1-9]` captures the first 1 of 11 before `1[0-2]` is
ever tried. -/
theorem month_resolver_scenarios :
    parse_month_from_text { year := 2024, month := 3, day := 15 } (some ("今月")) =
      some ("2024-03") ∧
    parse_month_from_text { year := 2024, month := 3, day := 15 } (some ("先月")) =
      some ("2024-02") ∧
    parse_month_from_text { year := 2024, month := 3, day := 15 } (some ("5月")) =
      some ("2023-05") ∧
    parse_month_from_text { year := 2024, month := 3, day := 15 } (some ("hello")) = none ∧
    parse_month_from_text { year := 2024, month := 3, day := 15 } (some ("2023/11")) =
      some ("2023-01") ∧
    parse_month_from_text { year := 2024, month := 3, day := 15 } (some ("2023/11")) ≠
      some ("2023-11") := by decide

/-- C8: an empty ledger, or any ledger on which the included-in-calc and
month filters leave no row, yields the zero-valued summary without error:
all totals 0, both row counts 0, empty category and expense lists.  Stated
for every month string, hence for every valid MonthToken. -/
theorem empty_or_filtered_gives_zero_summary (m : String) (l : Ledger)
    (h : l.rows = [] ∨ usedRows l m = []) :
    summarize_df l m = { month := m, rows_total := 0, rows_used := 0, total_income := 0,
                         total_expense := 0, net := 0, by_category := [], top_expenses := [] } := by
  rcases h with h | h
  · simp [summarize_df, h, zeroSummary]
  · by_cases h1 : l.rows.isEmpty = true
    · simp [summarize_df, h1, zeroSummary]
    · simp [summarize_df, h1, h, zeroSummary]

/-- C8 witness: the zero summary on the concrete empty ledger. -/
theorem empty_or_filtered_gives_zero_summary_witness :
    summarize_df emptyLedger ("2024-05") = { month := "2024-05", rows_total := 0,
                                             rows_used := 0, total_income := 0,
                                             total_expense := 0, net := 0, by_category := [],
                                             top_expenses := [] } :=
  empty_or_filtered_gives_zero_summary ("2024-05") emptyLedger (Or.inl rfl)

/-- The source regex body and the spec's canonical-shape reading agree on
every character list. -/
theorem monthShape7_eq_canonical : ∀ cs : List Char, monthShape7 cs = canonicalYMList cs
  | [] => rfl
  | [_] => rfl
  | [_, _] => rfl
  | [_, _, _] => rfl
  | [_, _, _, _] => rfl
  | [_, _, _, _, _] => rfl
  | [_, _, _, _, _, _] => rfl
  | [y1, y2, y3, y4, h, m1, m2] => by
      simp only [monthShape7, canonicalYMList, decide_eq_decide]
      constructor
      · rintro ⟨h1, h2, h3, h4, h5, h6⟩
        refine ⟨h1, h2, h3, h4, h5, ?_, ?_, ?_, ?_⟩ <;> omega
      · rintro ⟨h1, h2, h3, h4, h5, h6, h7, h8, h9⟩
        exact ⟨h1, h2, h3, h4, h5, by omega⟩
  | _ :: _ :: _ :: _ :: _ :: _ :: _ :: _ :: _ => rfl

/-- The `\d`-abstracted regex body and the spec-style reading of the shape
the validator enforces agree on every character list, for every digit
class. -/
theorem monthShape7D_eq_canonicalD (dig : Char → Bool) :
    ∀ cs : List Char, monthShape7D dig cs = canonicalYMListD dig cs
  | [] => rfl
  | [_] => rfl
  | [_, _] => rfl
  | [_, _, _] => rfl
  | [_, _, _, _] => rfl
  | [_, _, _, _, _] => rfl
  | [_, _, _, _, _, _] => rfl
  | [y1, y2, y3, y4, h, m1, m2] => by
      simp only [monthShape7D, canonicalYMListD, decide_eq_decide]
      constructor
      · rintro ⟨h1, h2, h3, h4, h5, h6⟩
        refine ⟨h1, h2, h3, h4, h5, ?_, ?_, ?_, ?_⟩ <;> omega
      · rintro ⟨h1, h2, h3, h4, h5, h6, h7, h8, h9⟩
        exact ⟨h1, h2, h3, h4, h5, by omega⟩
  | _ :: _ :: _ :: _ :: _ :: _ :: _ :: _ :: _ => rfl

/-- The ASCII canonical shape implies the `dig`-shape for every digit class
containing the ASCII digits. -/
theorem canonicalYMList_imp_D (dig : Char → Bool)
    (hdig : ∀ c : Char, isDig c = true → dig c = true) :
    ∀ cs : List Char, canonicalYMList cs = true → canonicalYMListD dig cs = true
  | [] => fun hh => Bool.noConfusion hh
  | [_] => fun hh => Bool.noConfusion hh
  | [_, _] => fun hh => Bool.noConfusion hh
  | [_, _, _] => fun hh => Bool.noConfusion hh
  | [_, _, _, _] => fun hh => Bool.noConfusion hh
  | [_, _, _, _, _] => fun hh => Bool.noConfusion hh
  | [_, _, _, _, _, _] => fun hh => Bool.noConfusion hh
  | [y1, y2, y3, y4, h, m1, m2] => by
      simp only [canonicalYMList, canonicalYMListD, decide_eq_true_eq]
      rintro ⟨h1, h2, h3, h4, h5, h6, h7, h8, h9⟩
      exact ⟨hdig y1 (by simp only [isDig, decide_eq_true_eq]; exact h1),
        hdig y2 (by simp only [isDig, decide_eq_true_eq]; exact h2),
        hdig y3 (by simp only [isDig, decide_eq_true_eq]; exact h3),
        hdig y4 (by simp only [isDig, decide_eq_true_eq]; exact h4),
        h5, h6, h7, h8, h9⟩
  | _ :: _ :: _ :: _ :: _ :: _ :: _ :: _ :: _ => fun hh => Bool.noConfusion hh

/-- The retained ASCII regex body is the `isDig` instance of the abstracted
one. -/
theorem monthShape7_eq_D : ∀ cs : List Char, monthShape7 cs = monthShape7D isDig cs
  | [] => rfl
  | [_] => rfl
  | [_, _] => rfl
  | [_, _, _] => rfl
  | [_, _, _, _] => rfl
  | [_, _, _, _, _] => rfl
  | [_, _, _, _, _, _] => rfl
  | [y1, y2, y3, y4, h, m1, m2] => by
      simp [monthShape7, monthShape7D, isDig]
  | _ :: _ :: _ :: _ :: _ :: _ :: _ :: _ :: _ => rfl

/-- The retained ASCII validator is the `isDig` instance of the abstracted
one. -/
theorem MONTH_RE_match_eq_D (s : String) : MONTH_RE_match s = MONTH_RE_matchD isDig s := by
  cases hg : s.data.getLast? <;>
    simp [MONTH_RE_match, MONTH_RE_matchD, hg, monthShape7_eq_D]

/-- C9 counterexample: the validator accepts month strings that do not
match the canonical YYYY-MM shape.  First, Python's `$` matches just before
a trailing newline, so the canonical body followed by one newline passes.
Second, `\d` without `re.ASCII` matches every Unicode Nd digit: under
`digWide` — a subclass of Nd containing the fullwidth digits, so the real
`MONTH_RE` accepts whatever it accepts — the fullwidth-year string
２０２４-11 passes, although it is not canonical either. -/
theorem month_validation_accepts_noncanonical :
    MONTH_RE_match ("2024-03\n") = true ∧ canonicalYM ("2024-03\n") = false ∧
    MONTH_RE_matchD digWide ("２０２４-11") = true ∧
    canonicalYM ("２０２４-11") = false := by decide

/-- C9 as amended: for every digit class `dig` containing the ASCII digits
— in particular Python's Nd class, which `\d` denotes here — the validator
accepts a month string exactly when it consists of four `dig` digits, a
hyphen and an ASCII two-digit month in 01..12, optionally followed by one
trailing newline; every canonical YYYY-MM string is accepted; and every
rejected month string makes the summarize endpoint return the validation
error before any summarization is performed.  The rejection direction of
the original claim fails exactly on the newline-suffixed and on the
non-ASCII-digit-year acceptances. -/
theorem month_validation_digit_class (dig : Char → Bool) (s : String) (l : Ledger)
    (hdig : ∀ c : Char, isDig c = true → dig c = true) :
    (MONTH_RE_matchD dig s = true ↔
      (canonicalYMListD dig s.data = true ∨
        (s.data.getLast? = some '\n' ∧ canonicalYMListD dig s.data.dropLast = true))) ∧
    (canonicalYM s = true → MONTH_RE_matchD dig s = true) ∧
    (MONTH_RE_matchD dig s = false →
      summarize_endpointD dig l s = Except.error ("month must be in YYYY-MM format")) := by
  have hiff : MONTH_RE_matchD dig s = true ↔
      (canonicalYMListD dig s.data = true ∨
        (s.data.getLast? = some '\n' ∧ canonicalYMListD dig s.data.dropLast = true)) := by
    unfold MONTH_RE_matchD
    cases hg : s.data.getLast? with
    | none => simp [hg, monthShape7D_eq_canonicalD]
    | some c => simp [hg, monthShape7D_eq_canonicalD, Bool.or_eq_true, Bool.and_eq_true,
        beq_iff_eq]
  refine ⟨hiff, ?_, ?_⟩
  · intro hcan
    exact hiff.mpr (Or.inl (canonicalYMList_imp_D dig hdig s.data hcan))
  · intro hrej
    unfold summarize_endpointD validate_monthD
    simp [hrej]

/-- C9 witness: under the concrete ASCII-containing class `digWide`, the
canonical month 2024-07 is accepted, and the malformed month 2024-13 makes
the endpoint return the validation error before summarization. -/
theorem month_validation_digit_class_witness :
    MONTH_RE_matchD digWide ("2024-07") = true ∧
    summarize_endpointD digWide ledger1 ("2024-13") =
      Except.error ("month must be in YYYY-MM format") :=
  ⟨(month_validation_digit_class digWide ("2024-07") ledger1 digWide_extends_ascii).2.1
      (by decide),
   (month_validation_digit_class digWide ("2024-13") ledger1 digWide_extends_ascii).2.2
      (by decide)⟩

/-- C10: a `/read_csv` request is accepted by validation exactly when its
`limit` lies in the inclusive range 1..200 — in particular every limit above
200 is rejected, an upper bound the spec does not state. -/
theorem read_csv_limit_bounds (req : ReadCsvRequestM) :
    readCsvAccepts req = true ↔ (1 ≤ req.limit ∧ req.limit ≤ 200) := by
  simp [readCsvAccepts, limitValid]

end Kakeibo
